import Mathlib

/-!
Verification development for the minecraft-site health-check servers.

The repository contains three Python scripts, each an HTTP server reporting
liveness of a monitored workload:
  * minecraft-health-server.py          (process-pattern variant, namespace Proc)
  * minecraft-health-server-docker.py   (container variant, namespace Docker)
  * minecraft-health-server-polling.py  (cached-poll variant, namespace Polling)

The shallow embedding below translates the relevant Python functions into
Lean. A call to subprocess.run is modelled by its observable outcome
(SubprocOutcome); Python exceptions escaping a function are modelled with
Except PyExc; the HTTP handler methods become pure functions from the
outcome environment and the request path to a response value.
-/

namespace MinecraftSite

/-- Python exception values relevant to these scripts; each carries the text
that str(e) would produce. -/
inductive PyExc where
  | timeoutExpired (msg : String)
  | fileNotFoundError (msg : String)
  | other (msg : String)
deriving DecidableEq

/-- Text that the Python expression str(e) yields for a caught exception. -/
def pyExcStr : PyExc → String
  | .timeoutExpired m => m
  | .fileNotFoundError m => m
  | .other m => m

/-- Observable outcome of one subprocess.run invocation: either the child
completed (returncode, stdout, stderr with text=True and capture_output=True),
or the call raised subprocess.TimeoutExpired, FileNotFoundError, or some
other exception. -/
inductive SubprocOutcome where
  | completed (returncode : Int) (stdout : String) (stderr : String)
  | timedOut (msg : String)
  | fileNotFound (msg : String)
  | raised (msg : String)
deriving DecidableEq

/-- Semantics of the subprocess.run call itself: a completed child returns
its (returncode, stdout, stderr) triple, every other outcome raises. -/
def subprocessRun : SubprocOutcome → Except PyExc (Int × String × String)
  | .completed rc out err => .ok (rc, out, err)
  | .timedOut m => .error (.timeoutExpired m)
  | .fileNotFound m => .error (.fileNotFoundError m)
  | .raised m => .error (.other m)

/-- Marker with which a running container status line begins ("Up ..."). -/
def upMarker : String := "Up"

/-- Path of the liveness endpoint. -/
def healthPath : String := "/health"

/-- Path of the diagnostics endpoint. -/
def debugPath : String := "/debug"

/-- Content-Type header value sent with health and debug responses. -/
def appJson : String := "application/json"

/-- Exact bytes written for a 200 health response in the direct-check
variants. -/
def healthOkBody : String := "\x7b\"status\":\"ok\",\"minecraft\":\"running\"\x7d"

/-- Exact bytes written for a 503 health response in the direct-check
variants. -/
def healthErrBody : String := "\x7b\"status\":\"error\",\"minecraft\":\"not_running\"\x7d"

/-- JSON document values, used for the structured /debug payloads and for
checking whether a body is parseable as JSON. Numbers are kept as their
source text since their numeric value is never consumed by the programs. -/
inductive Json where
  | null
  | bool (b : Bool)
  | num (lit : String)
  | str (s : String)
  | arr (items : List Json)
  | obj (fields : List (String × Json))

/-- Python values that can appear in the cached-poll status dict. A
time.time() float is abstracted to a whole-numbered tick. -/
inductive PyVal where
  | none
  | bool (b : Bool)
  | str (s : String)
  | time (t : Nat)
deriving DecidableEq

/-- Single-quote character as a string, as used by Python repr of a str. -/
def sq : String := "\x27"

/-- Python repr of a PyVal (repr of a whole-second float ends in ".0";
the string literals appearing in these dicts need no escaping). -/
def pyRepr : PyVal → String
  | .none => "None"
  | .bool true => "True"
  | .bool false => "False"
  | .str s => sq ++ s ++ sq
  | .time t => toString t ++ ".0"

/-- Python str() of a dict with string keys: repr of each key, ": ",
repr of each value, entries joined by ", ", wrapped in braces. -/
def pyStrDict (d : List (String × PyVal)) : String :=
  "\x7b" ++ String.intercalate (", ")
    (d.map (fun kv => sq ++ kv.1 ++ sq ++ ": " ++ pyRepr kv.2)) ++ "\x7d"

/-- Lookup of a key in a Python-dict model (first binding; the dicts built
by these scripts have distinct keys). -/
def lookupVal : List (String × PyVal) → String → Option PyVal
  | [], _ => Option.none
  | (k, v) :: rest, q => if k = q then some v else lookupVal rest q

/-- Body of an HTTP response: nothing, literal bytes, or the json.dumps
encoding of a structured document (JSON encoding itself is the external
collaborator; the document is what the program hands to it). -/
inductive Body where
  | empty
  | bytes (s : String)
  | jsonDump (doc : Json)

/-- An HTTP response as produced by a handler: status code, optional
Content-Type header, body. -/
structure HttpResponse where
  status : Nat
  contentType : Option String
  body : Body

/-- Shared status record guarded by status_lock in the cached-poll variant:
the module-level dict minecraft_status with fields is_running and
last_check (None until the first background write). -/
structure StatusRecord where
  is_running : Bool
  last_check : Option Nat
deriving DecidableEq

/-- Whitespace characters of the JSON grammar. -/
def isJsonWs (c : Char) : Bool :=
  c = ' ' || c = '\t' || c = '\n' || c = '\r'

/-- Drop leading JSON whitespace. -/
def skipWs : List Char → List Char
  | [] => []
  | c :: cs => if isJsonWs c then skipWs cs else c :: cs

/-- Value of a hexadecimal digit, for string escapes. -/
def hexVal (c : Char) : Option Nat :=
  if 48 ≤ c.toNat && c.toNat ≤ 57 then some (c.toNat - 48)
  else if 97 ≤ c.toNat && c.toNat ≤ 102 then some (c.toNat - 87)
  else if 65 ≤ c.toNat && c.toNat ≤ 70 then some (c.toNat - 55)
  else Option.none

/-- Parse the remainder of a JSON string literal, after its opening double
quote: returns the decoded characters and the input after the closing
quote. Raw control characters are rejected; the standard escapes and
four-digit unicode escapes are decoded. -/
def parseStringRest : List Char → Option (List Char × List Char)
  | [] => Option.none
  | c :: cs =>
    if c = '\x22' then some ([], cs)
    else if c = '\\' then
      match cs with
      | [] => Option.none
      | e :: cs' =>
        if e = '\x22' || e = '\\' || e = '/' then
          (parseStringRest cs').map (fun p => (e :: p.1, p.2))
        else if e = 'b' then (parseStringRest cs').map (fun p => ('\x08' :: p.1, p.2))
        else if e = 'f' then (parseStringRest cs').map (fun p => ('\x0c' :: p.1, p.2))
        else if e = 'n' then (parseStringRest cs').map (fun p => ('\n' :: p.1, p.2))
        else if e = 'r' then (parseStringRest cs').map (fun p => ('\r' :: p.1, p.2))
        else if e = 't' then (parseStringRest cs').map (fun p => ('\t' :: p.1, p.2))
        else if e = 'u' then
          match cs' with
          | h1 :: h2 :: h3 :: h4 :: cs2 =>
            match hexVal h1, hexVal h2, hexVal h3, hexVal h4 with
            | some a, some b, some c2, some d =>
                (parseStringRest cs2).map
                  (fun p => (Char.ofNat (((a * 16 + b) * 16 + c2) * 16 + d) :: p.1, p.2))
            | _, _, _, _ => Option.none
          | _ => Option.none
        else Option.none
    else if c.toNat < 32 then Option.none
    else (parseStringRest cs).map (fun p => (c :: p.1, p.2))

/-- Split off a maximal run of decimal digits. -/
def spanDigits : List Char → List Char × List Char
  | [] => ([], [])
  | c :: rest =>
    if 48 ≤ c.toNat && c.toNat ≤ 57 then
      let p := spanDigits rest
      (c :: p.1, p.2)
    else ([], c :: rest)

/-- Parse the integer part of a JSON number after any minus sign: a lone
zero, or a nonzero digit followed by digits. -/
def parseIntPart : List Char → Option (List Char × List Char)
  | [] => Option.none
  | c :: rest =>
    if c = '0' then some ([c], rest)
    else if 49 ≤ c.toNat && c.toNat ≤ 57 then
      let p := spanDigits rest
      some (c :: p.1, p.2)
    else Option.none

/-- Parse an optional fraction part: a dot followed by at least one digit. -/
def parseFracPart : List Char → Option (List Char × List Char)
  | '.' :: rest =>
    (match spanDigits rest with
     | ([], _) => Option.none
     | (ds, rest') => some ('.' :: ds, rest'))
  | cs => some ([], cs)

/-- Parse an optional exponent part: e or E, an optional sign, digits. -/
def parseExpPart : List Char → Option (List Char × List Char)
  | [] => some ([], [])
  | c :: rest =>
    if c = 'e' || c = 'E' then
      match rest with
      | s :: rest' =>
        if s = '+' || s = '-' then
          match spanDigits rest' with
          | ([], _) => Option.none
          | (ds, r) => some (c :: s :: ds, r)
        else
          match spanDigits rest with
          | ([], _) => Option.none
          | (ds, r) => some (c :: ds, r)
      | [] => Option.none
    else some ([], c :: rest)

/-- Parse a JSON number, keeping its literal text. -/
def parseNumber (cs : List Char) : Option (Json × List Char) :=
  match cs with
  | '-' :: rest => do
      let (i, r1) ← parseIntPart rest
      let (f, r2) ← parseFracPart r1
      let (x, r3) ← parseExpPart r2
      some (Json.num (String.mk ('-' :: (i ++ f ++ x))), r3)
  | _ => do
      let (i, r1) ← parseIntPart cs
      let (f, r2) ← parseFracPart r1
      let (x, r3) ← parseExpPart r2
      some (Json.num (String.mk (i ++ f ++ x)), r3)

mutual

/-- Parse one JSON value at the head of the input (leading whitespace
already skipped); fuel bounds the nesting recursion. -/
def parseValue : Nat → List Char → Option (Json × List Char)
  | 0, _ => Option.none
  | fuel + 1, cs =>
    match cs with
    | 'n' :: 'u' :: 'l' :: 'l' :: rest => some (Json.null, rest)
    | 't' :: 'r' :: 'u' :: 'e' :: rest => some (Json.bool true, rest)
    | 'f' :: 'a' :: 'l' :: 's' :: 'e' :: rest => some (Json.bool false, rest)
    | '\x22' :: rest =>
        (parseStringRest rest).map (fun p => (Json.str (String.mk p.1), p.2))
    | '\x7b' :: rest =>
        (match skipWs rest with
         | '\x7d' :: rest' => some (Json.obj [], rest')
         | cs' => (parseMembers fuel cs').map (fun p => (Json.obj p.1, p.2)))
    | '[' :: rest =>
        (match skipWs rest with
         | ']' :: rest' => some (Json.arr [], rest')
         | cs' => (parseItems fuel cs').map (fun p => (Json.arr p.1, p.2)))
    | _ => parseNumber cs

/-- Parse the members of a JSON object, positioned at the first key. -/
def parseMembers : Nat → List Char → Option (List (String × Json) × List Char)
  | 0, _ => Option.none
  | fuel + 1, cs =>
    match cs with
    | '\x22' :: rest => do
        let (k, cs1) ← parseStringRest rest
        match skipWs cs1 with
        | ':' :: cs2 => do
            let (v, cs3) ← parseValue fuel (skipWs cs2)
            match skipWs cs3 with
            | ',' :: cs4 =>
                (parseMembers fuel (skipWs cs4)).map
                  (fun p => ((String.mk k, v) :: p.1, p.2))
            | '\x7d' :: cs4 => some ([(String.mk k, v)], cs4)
            | _ => Option.none
        | _ => Option.none
    | _ => Option.none

/-- Parse the items of a JSON array, positioned at the first item. -/
def parseItems : Nat → List Char → Option (List Json × List Char)
  | 0, _ => Option.none
  | fuel + 1, cs => do
      let (v, cs1) ← parseValue fuel (skipWs cs)
      match skipWs cs1 with
      | ',' :: cs2 => (parseItems fuel (skipWs cs2)).map (fun p => (v :: p.1, p.2))
      | ']' :: cs2 => some ([v], cs2)
      | _ => Option.none

end

/-- Whether a whole string is a single valid JSON document (the grammar
accepted by json.loads). -/
def parseJson (s : String) : Option Json :=
  match parseValue (s.length + 1) (skipWs s.data) with
  | some (v, rest) => if (skipWs rest).isEmpty then some v else Option.none
  | Option.none => Option.none

/-- Model of json.loads: the parsed document, or the JSONDecodeError text
(modelled by its fixed prefix; the programs never inspect it). -/
def json_loads (s : String) : Except String Json :=
  match parseJson s with
  | some v => Except.ok v
  | Option.none => Except.error ("Expecting value")

/-- Digits of the mantissa of a JSON number literal are all zero. -/
def numLitIsZero (lit : String) : Bool :=
  (lit.data.takeWhile (fun c => !(c = 'e' || c = 'E'))).all
    (fun c => c = '0' || c = '-' || c = '.')

/-- Python truthiness of a value decoded by json.loads. -/
def pyTruthy : Json → Bool
  | .null => false
  | .bool b => b
  | .num lit => !(numLitIsZero lit)
  | .str s => !(s.isEmpty)
  | .arr items => !(items.isEmpty)
  | .obj fields => !(fields.isEmpty)

/-- Dict get with default on a decoded JSON object, as used on
container_info entries: the last binding wins, matching how json.loads
builds a dict from duplicate keys. -/
def jsonGetD (fields : List (String × Json)) (k : String) (d : Json) : Json :=
  match (fields.reverse).lookup k with
  | some v => v
  | Option.none => d

/-- Outcome of binding the listening socket. -/
inductive BindOutcome where
  | ok
  | permissionDenied
  | osError (msg : String)
deriving DecidableEq

/-- What a main function does: either the process exits with a code, or
the HTTP listener starts serving. -/
inductive StartOutcome where
  | exited (code : Nat)
  | listenerStarted
deriving DecidableEq

namespace Proc

/-- HealthCheckHandler.is_minecraft_running of minecraft-health-server.py:
runs pgrep -f MINECRAFT_PROCESS_NAME with a 5 second timeout and returns
returncode == 0; except subprocess.TimeoutExpired warns and returns False;
except Exception logs and returns False. The argument is the outcome of the
single subprocess.run call. -/
def is_minecraft_running (o : SubprocOutcome) : Except PyExc Bool :=
  match subprocessRun o with
  | .ok (rc, _out, _err) => .ok (rc == 0)
  | .error (.timeoutExpired _m) => .ok false
  | .error _e => .ok false

/-- Value of is_minecraft_running when it returns normally (it never
raises; see proc_run_ok below). -/
def is_running_val (o : SubprocOutcome) : Bool :=
  match is_minecraft_running o with
  | .ok b => b
  | .error _ => false

/-- Literal pattern list searched by the loop in get_debug_info. -/
def patterns : List String :=
  [("bedrock_server"), ("bedrock"), ("minecraft"), ("LD_LIBRARY_PATH")]

/-- Entry built for one pattern inside the search loop of get_debug_info:
on a completed pgrep, found is returncode == 0 and pids is
stdout.strip() split at newlines when found (else the empty list); a
raised exception is caught and recorded as an error field. -/
def patternResult (o : SubprocOutcome) : Json :=
  match subprocessRun o with
  | .ok (rc, out, _err) =>
      Json.obj
        [("found", Json.bool (rc == 0)),
         ("pids", Json.arr (if rc == 0
            then (((out.trim).splitOn ("\n")).map Json.str)
            else []))]
  | .error e => Json.obj [("error", Json.str (pyExcStr e))]

/-- Contents of the search_results section of the debug document: one
entry per fixed pattern; the configured process name plays no part.
probeOf gives the outcome of running pgrep -f p during this request. -/
def search_results (probeOf : String → SubprocOutcome) : List (String × Json) :=
  patterns.map (fun p => (p, patternResult (probeOf p)))

/-- HealthCheckHandler.get_debug_info of minecraft-health-server.py: a
dict of the configured process name, a fresh is_minecraft_running call
and the per-pattern search results; the caller serializes it with
json.dumps. -/
def get_debug_info (probeOf : String → SubprocOutcome) (name : String) :
    Except PyExc Json := do
  let b ← is_minecraft_running (probeOf name)
  pure (Json.obj
    [("process_name", Json.str name),
     ("is_running", Json.bool b),
     ("search_results", Json.obj (search_results probeOf))])

/-- HealthCheckHandler.do_GET of minecraft-health-server.py: /health runs
the probe and answers 200 or 503 with fixed JSON bytes, /debug answers
200 with the dumped debug document, anything else answers 404. -/
def do_GET (probeOf : String → SubprocOutcome) (name : String) (path : String) :
    Except PyExc HttpResponse := do
  if path = healthPath then
    let running ← is_minecraft_running (probeOf name)
    if running then
      pure { status := 200, contentType := some appJson, body := Body.bytes healthOkBody }
    else
      pure { status := 503, contentType := some appJson, body := Body.bytes healthErrBody }
  else if path = debugPath then
    let doc ← get_debug_info probeOf name
    pure { status := 200, contentType := some appJson, body := Body.jsonDump doc }
  else
    pure { status := 404, contentType := Option.none, body := Body.empty }

/-- Function main of minecraft-health-server.py: prints banners and starts
the TCPServer; PermissionError and OSError while binding exit with status
1. No check of the pgrep tool happens before serving, so the availability
of the probe tool (first argument) is never consulted. -/
def main (_pgrepAvailable : Bool) (bind : BindOutcome) : StartOutcome :=
  match bind with
  | .ok => .listenerStarted
  | .permissionDenied => .exited 1
  | .osError _m => .exited 1

end Proc

namespace Docker

/-- HealthCheckHandler.is_minecraft_running of
minecraft-health-server-docker.py: runs
docker ps --filter name=NAME --format with a 5 second timeout; a non-zero
returncode logs and returns False, otherwise the container is up iff
result.stdout.strip() starts with "Up"; TimeoutExpired, FileNotFoundError
and any other Exception are each caught and return False. -/
def is_minecraft_running (o : SubprocOutcome) : Except PyExc Bool :=
  match subprocessRun o with
  | .ok (rc, out, _err) =>
      if rc != 0 then .ok false
      else .ok ((out.trim).startsWith upMarker)
  | .error (.timeoutExpired _m) => .ok false
  | .error (.fileNotFoundError _m) => .ok false
  | .error (.other _m) => .ok false

/-- Value of Docker.is_minecraft_running when it returns normally (it
never raises; see docker_run_ok below). -/
def is_running_val (o : SubprocOutcome) : Bool :=
  match is_minecraft_running o with
  | .ok b => b
  | .error _ => false

/-- Parse one line of docker ps -a output inside the debug loop: skipped
when empty or when splitting on tab yields fewer than three parts,
otherwise a dict of name, status, image from the first three parts. -/
def parseContainerLine (line : String) : Option Json :=
  if line = "" then Option.none
  else
    match line.splitOn ("\t") with
    | p0 :: p1 :: p2 :: _ =>
        some (Json.obj
          [("name", Json.str p0), ("status", Json.str p1), ("image", Json.str p2)])
    | _ => Option.none

/-- Fields added to docker_info by the docker ps -a block of
get_debug_info: all_containers on success, an error field containing
stderr on a non-zero exit, an error field containing str(e) when the call
raises. -/
def psAllSection (o : SubprocOutcome) : List (String × Json) :=
  match subprocessRun o with
  | .ok (rc, out, err) =>
      if rc == 0 then
        [("all_containers",
          Json.arr (((out.trim).splitOn ("\n")).filterMap parseContainerLine))]
      else [("error", Json.str err)]
  | .error e => [("error", Json.str (pyExcStr e))]

/-- Text of the exception raised when subscripting or attribute lookup on
the decoded docker inspect document fails (a non-list document, or a
first element that is not a dict); its exact wording never influences
control flow. -/
def subscriptErrorStr : String := "unsupported subscript or attribute"

/-- Fields added to docker_info by the docker inspect block of
get_debug_info. On returncode 0 the stdout is decoded with json.loads: a
decode failure raises and is recorded as target_container_error; a truthy
decoded list whose head is a dict yields the target_container summary
(keys State and Name, with defaults); a falsy document adds nothing; any
other shape raises inside the try and is likewise recorded as
target_container_error. A non-zero returncode records the string
not_found under target_container; a raised call records str(e) under
target_container_error. -/
def inspectSection (o : SubprocOutcome) : List (String × Json) :=
  match subprocessRun o with
  | .ok (rc, out, _err) =>
      if rc == 0 then
        match json_loads out with
        | .ok v =>
            if pyTruthy v then
              match v with
              | .arr (Json.obj fs :: _) =>
                  [("target_container", Json.obj
                     [("state", jsonGetD fs ("State") (Json.obj [])),
                      ("name", jsonGetD fs ("Name") (Json.str ""))])]
              | _ => [("target_container_error", Json.str subscriptErrorStr)]
            else []
        | .error m => [("target_container_error", Json.str m)]
      else [("target_container", Json.str ("not_found"))]
  | .error e => [("target_container_error", Json.str (pyExcStr e))]

/-- Subprocess outcomes available to one request in the container variant:
the docker ps --filter call made by is_minecraft_running, and the
docker ps -a and docker inspect calls made by get_debug_info. -/
structure DockerEnv where
  healthPs : SubprocOutcome
  psAll : SubprocOutcome
  inspect : SubprocOutcome

/-- HealthCheckHandler.get_debug_info of minecraft-health-server-docker.py:
a dict of the configured container name, a fresh is_minecraft_running
call, and the docker_info section assembled from the two blocks above;
the caller serializes it with json.dumps. -/
def get_debug_info (env : DockerEnv) (cname : String) : Except PyExc Json := do
  let b ← is_minecraft_running env.healthPs
  pure (Json.obj
    [("container_name", Json.str cname),
     ("is_running", Json.bool b),
     ("docker_info", Json.obj (psAllSection env.psAll ++ inspectSection env.inspect))])

/-- HealthCheckHandler.do_GET of minecraft-health-server-docker.py:
/health runs the container probe and answers 200 or 503 with fixed JSON
bytes, /debug answers 200 with the dumped debug document, anything else
answers 404. -/
def do_GET (env : DockerEnv) (cname : String) (path : String) :
    Except PyExc HttpResponse := do
  if path = healthPath then
    let running ← is_minecraft_running env.healthPs
    if running then
      pure { status := 200, contentType := some appJson, body := Body.bytes healthOkBody }
    else
      pure { status := 503, contentType := some appJson, body := Body.bytes healthErrBody }
  else if path = debugPath then
    let doc ← get_debug_info env cname
    pure { status := 200, contentType := some appJson, body := Body.jsonDump doc }
  else
    pure { status := 404, contentType := Option.none, body := Body.empty }

/-- Function main of minecraft-health-server-docker.py: first runs
docker --version with a 5 second timeout; FileNotFoundError exits with
status 1; a completed call with non-zero returncode, and any other
exception, only log a warning; then the TCPServer starts, with bind
failures exiting with status 1. -/
def main (versionCheck : SubprocOutcome) (bind : BindOutcome) : StartOutcome :=
  match versionCheck with
  | .fileNotFound _m => .exited 1
  | _ =>
      match bind with
      | .ok => .listenerStarted
      | .permissionDenied => .exited 1
      | .osError _m => .exited 1

end Docker

namespace Polling

/-- Function check_minecraft_process of minecraft-health-server-polling.py:
runs pgrep -f MINECRAFT_PROCESS_NAME with a 5 second timeout and returns
returncode == 0; except Exception logs to stderr and returns False. -/
def check_minecraft_process (o : SubprocOutcome) : Except PyExc Bool :=
  match subprocessRun o with
  | .ok (rc, _out, _err) => .ok (rc == 0)
  | .error _e => .ok false

/-- Value of check_minecraft_process when it returns normally (it never
raises; see polling_check_ok below). -/
def check_val (o : SubprocOutcome) : Bool :=
  match check_minecraft_process o with
  | .ok b => b
  | .error _ => false

/-- Initial value of the module-level minecraft_status dict: is_running
False, last_check None. -/
def minecraft_status_init : MinecraftSite.StatusRecord :=
  { is_running := false, last_check := Option.none }

/-- One cycle of the background_checker loop body: call
check_minecraft_process, then (under status_lock) assign is_running and
last_check := time.time(), modelled by the tick t. -/
def background_cycle (o : SubprocOutcome) (t : Nat) :
    Except PyExc MinecraftSite.StatusRecord := do
  let b ← check_minecraft_process o
  pure { is_running := b, last_check := some t }

/-- Finite prefix of the infinite background_checker loop: each list entry
is the subprocess outcome and the time.time() tick of one cycle; the store
after the prefix is returned (or the exception that escaped the loop). -/
def run_cycles : List (SubprocOutcome × Nat) → MinecraftSite.StatusRecord →
    Except PyExc MinecraftSite.StatusRecord
  | [], st => .ok st
  | (o, t) :: rest, _st => do
      let st' ← background_cycle o t
      run_cycles rest st'

/-- Response dict built by the /health branch of do_GET: the then-branch
dict when is_running holds, the else-branch dict otherwise; both carry the
last_check value read from the store. -/
def health_response (st : MinecraftSite.StatusRecord) : List (String × PyVal) :=
  if st.is_running then
    [("status", PyVal.str ("ok")),
     ("minecraft", PyVal.str ("running")),
     ("last_check", match st.last_check with
                    | Option.none => PyVal.none
                    | some t => PyVal.time t)]
  else
    [("status", PyVal.str ("error")),
     ("minecraft", PyVal.str ("not_running")),
     ("last_check", match st.last_check with
                    | Option.none => PyVal.none
                    | some t => PyVal.time t)]

/-- HealthCheckHandler.do_GET of minecraft-health-server-polling.py,
applied to the snapshot of minecraft_status read under status_lock: /health
answers 200 or 503 with str(response).encode() as body; every other path
(there is no /debug route in this variant) answers 404 with no body. -/
def do_GET (st : MinecraftSite.StatusRecord) (path : String) : HttpResponse :=
  if path = healthPath then
    if st.is_running then
      { status := 200, contentType := some appJson,
        body := Body.bytes (pyStrDict (health_response st)) }
    else
      { status := 503, contentType := some appJson,
        body := Body.bytes (pyStrDict (health_response st)) }
  else
    { status := 404, contentType := Option.none, body := Body.empty }

/-- Function main of minecraft-health-server-polling.py: prints banners,
starts the daemon background_checker thread, sleeps one second and starts
the TCPServer; PermissionError and OSError while binding exit with status
1. No check of the pgrep tool happens before serving, so the availability
of the probe tool (first argument) is never consulted. -/
def main (_pgrepAvailable : Bool) (bind : BindOutcome) : StartOutcome :=
  match bind with
  | .ok => .listenerStarted
  | .permissionDenied => .exited 1
  | .osError _m => .exited 1

/-- Program counter of one cycle of the background_checker thread:
probing is the check_minecraft_process call made outside the lock,
acquiring is the entry into the with status_lock block, setRun and
setCheck are the two dict assignments made inside it, releasing is the
exit from the with block. -/
inductive WriterPC where
  | probing
  | acquiring
  | setRun
  | setCheck
  | releasing
  | done
deriving DecidableEq

/-- Program counter of one /health request handler: acquiring is the
entry into its with status_lock block, readRun and readCheck are the two
dict reads made inside it, releasing is the exit from the with block. -/
inductive ReaderPC where
  | acquiring
  | readRun
  | readCheck
  | releasing
  | done
deriving DecidableEq

/-- Fixed data of one writer cycle interleaved with one reader: the store
contents before the cycle, and the probe result and tick the cycle will
write. -/
structure SyncEnv where
  old : StatusRecord
  newRun : Bool
  newTime : Nat

/-- The record an interleaved cycle writes into the store. -/
def SyncEnv.newRec (e : SyncEnv) : StatusRecord :=
  { is_running := e.newRun, last_check := some e.newTime }

/-- Interleaving state of the shared minecraft_status dict, the
status_lock, the background writer and one concurrent /health reader.
The reader fields hold the values of the two dict reads once made. -/
structure SyncState where
  store : StatusRecord
  wHolds : Bool
  rHolds : Bool
  wpc : WriterPC
  rpc : ReaderPC
  rRun : Option Bool
  rCheck : Option (Option Nat)
deriving DecidableEq

/-- Initial interleaving state: store holds the prior record, the lock is
free, both threads are at their first instruction, nothing read yet. -/
def SyncState.init (e : SyncEnv) : SyncState :=
  { store := e.old, wHolds := false, rHolds := false,
    wpc := .probing, rpc := .acquiring,
    rRun := Option.none, rCheck := Option.none }

/-- Small-step interleaving semantics: the writer probes outside the lock,
acquires status_lock, assigns is_running, assigns last_check, releases;
the reader acquires status_lock, reads is_running, reads last_check,
releases. Acquisition requires the lock to be free. -/
inductive SyncStep (e : SyncEnv) : SyncState → SyncState → Prop where
  | probe (s : SyncState) (h : s.wpc = .probing) :
      SyncStep e s { s with wpc := .acquiring }
  | wAcquire (s : SyncState) (h : s.wpc = .acquiring)
      (hw : s.wHolds = false) (hr : s.rHolds = false) :
      SyncStep e s { s with wHolds := true, wpc := .setRun }
  | wSetRun (s : SyncState) (h : s.wpc = .setRun) :
      SyncStep e s { s with store := { s.store with is_running := e.newRun },
                            wpc := .setCheck }
  | wSetCheck (s : SyncState) (h : s.wpc = .setCheck) :
      SyncStep e s { s with store := { s.store with last_check := some e.newTime },
                            wpc := .releasing }
  | wRelease (s : SyncState) (h : s.wpc = .releasing) :
      SyncStep e s { s with wHolds := false, wpc := .done }
  | rAcquire (s : SyncState) (h : s.rpc = .acquiring)
      (hw : s.wHolds = false) (hr : s.rHolds = false) :
      SyncStep e s { s with rHolds := true, rpc := .readRun }
  | rReadRun (s : SyncState) (h : s.rpc = .readRun) :
      SyncStep e s { s with rRun := some s.store.is_running, rpc := .readCheck }
  | rReadCheck (s : SyncState) (h : s.rpc = .readCheck) :
      SyncStep e s { s with rCheck := some s.store.last_check, rpc := .releasing }
  | rRelease (s : SyncState) (h : s.rpc = .releasing) :
      SyncStep e s { s with rHolds := false, rpc := .done }

/-- States reachable from the initial interleaving state. -/
inductive SyncReachable (e : SyncEnv) : SyncState → Prop where
  | init : SyncReachable e (SyncState.init e)
  | step (s t : SyncState) (hs : SyncReachable e s) (st : SyncStep e s t) :
      SyncReachable e t

/-- Lock possession the writer should have at each program point: exactly
across the two assignments and the release. -/
def wHoldsShape : WriterPC → Bool
  | .setRun => true
  | .setCheck => true
  | .releasing => true
  | _ => false

/-- Lock possession the reader should have at each program point. -/
def rHoldsShape : ReaderPC → Bool
  | .readRun => true
  | .readCheck => true
  | .releasing => true
  | _ => false

/-- Store contents determined by the writer program point: the prior
record until the first assignment lands, the half-written record between
the two assignments, the new record afterwards. -/
def storeShape (e : SyncEnv) : WriterPC → StatusRecord
  | .probing => e.old
  | .acquiring => e.old
  | .setRun => e.old
  | .setCheck => { is_running := e.newRun, last_check := e.old.last_check }
  | .releasing => e.newRec
  | .done => e.newRec

/-- Reader-local facts determined by the reader program point. -/
def readerShape (e : SyncEnv) (s : SyncState) : Prop :=
  match s.rpc with
  | .acquiring => s.rRun = Option.none ∧ s.rCheck = Option.none
  | .readRun => s.rRun = Option.none ∧ s.rCheck = Option.none
  | .readCheck => s.rRun = some s.store.is_running ∧ s.rCheck = Option.none
  | .releasing => s.rRun = some s.store.is_running ∧ s.rCheck = some s.store.last_check
  | .done =>
      (s.rRun = some e.old.is_running ∧ s.rCheck = some e.old.last_check) ∨
      (s.rRun = some e.newRun ∧ s.rCheck = some (some e.newTime))

/-- Inductive invariant of the interleaving semantics. -/
def SyncInv (e : SyncEnv) (s : SyncState) : Prop :=
  s.wHolds = wHoldsShape s.wpc ∧
  s.rHolds = rHoldsShape s.rpc ∧
  (wHoldsShape s.wpc = false ∨ rHoldsShape s.rpc = false) ∧
  s.store = storeShape e s.wpc ∧
  readerShape e s

end Polling

/-- Concrete environment for exercising the interleaving semantics: the
store starts at the initial record and the cycle writes (true, tick 42). -/
def c1env : Polling.SyncEnv :=
  { old := { is_running := false, last_check := Option.none },
    newRun := true, newTime := 42 }

/-- State after a full writer cycle followed by a full reader pass under
c1env. -/
def c1final : Polling.SyncState :=
  { store := { is_running := true, last_check := some 42 },
    wHolds := false, rHolds := false,
    wpc := Polling.WriterPC.done, rpc := Polling.ReaderPC.done,
    rRun := some true, rCheck := some (some 42) }

/-!
Theorems. Helper lemmas come first, then one theorem per claim of the
specification (with witnesses and counterexamples where applicable).
-/

theorem proc_run_ok (o : SubprocOutcome) :
    Proc.is_minecraft_running o = .ok (Proc.is_running_val o) := by
  cases o <;> rfl

theorem docker_run_ok (o : SubprocOutcome) :
    Docker.is_minecraft_running o = .ok (Docker.is_running_val o) := by
  cases o with
  | completed rc out err =>
      by_cases h : rc != 0 <;>
        simp [Docker.is_minecraft_running, Docker.is_running_val, subprocessRun, h]
  | timedOut m => rfl
  | fileNotFound m => rfl
  | raised m => rfl

theorem polling_check_ok (o : SubprocOutcome) :
    Polling.check_minecraft_process o = .ok (Polling.check_val o) := by
  cases o <;> rfl

theorem sync_inv_init (e : Polling.SyncEnv) :
    Polling.SyncInv e (Polling.SyncState.init e) :=
  ⟨rfl, rfl, Or.inl rfl, rfl, rfl, rfl⟩

theorem sync_inv_step (e : Polling.SyncEnv) (s t : Polling.SyncState)
    (hi : Polling.SyncInv e s) (st : Polling.SyncStep e s t) :
    Polling.SyncInv e t := by
  obtain ⟨store, wh, rh, wpc, rpc, rRun, rCheck⟩ := s
  obtain ⟨hw, hr, hmx, hst, hrd⟩ := hi
  cases st with
  | probe h =>
      have h' : wpc = Polling.WriterPC.probing := h
      subst h'
      have hw' : wh = false := hw
      subst hw'
      have hst' : store = e.old := hst
      subst hst'
      exact ⟨rfl, hr, Or.inl rfl, rfl, hrd⟩
  | wAcquire h hw2 hr2 =>
      have h' : wpc = Polling.WriterPC.acquiring := h
      subst h'
      have hw' : wh = false := hw2
      subst hw'
      have hr' : rh = false := hr2
      subst hr'
      have hst' : store = e.old := hst
      subst hst'
      exact ⟨rfl, hr, Or.inr hr.symm, rfl, hrd⟩
  | wSetRun h =>
      have h' : wpc = Polling.WriterPC.setRun := h
      subst h'
      have hw' : wh = true := hw
      subst hw'
      have hst' : store = e.old := hst
      subst hst'
      have hrr : Polling.rHoldsShape rpc = false := by
        rcases hmx with hx | hx
        · simp [Polling.wHoldsShape] at hx
        · exact hx
      refine ⟨rfl, hr, Or.inr hrr, rfl, ?_⟩
      cases rpc with
      | acquiring => exact hrd
      | readRun => simp [Polling.rHoldsShape] at hrr
      | readCheck => simp [Polling.rHoldsShape] at hrr
      | releasing => simp [Polling.rHoldsShape] at hrr
      | done => exact hrd
  | wSetCheck h =>
      have h' : wpc = Polling.WriterPC.setCheck := h
      subst h'
      have hw' : wh = true := hw
      subst hw'
      have hst' : store =
          { is_running := e.newRun, last_check := e.old.last_check } := hst
      subst hst'
      have hrr : Polling.rHoldsShape rpc = false := by
        rcases hmx with hx | hx
        · simp [Polling.wHoldsShape] at hx
        · exact hx
      refine ⟨rfl, hr, Or.inr hrr, rfl, ?_⟩
      cases rpc with
      | acquiring => exact hrd
      | readRun => simp [Polling.rHoldsShape] at hrr
      | readCheck => simp [Polling.rHoldsShape] at hrr
      | releasing => simp [Polling.rHoldsShape] at hrr
      | done => exact hrd
  | wRelease h =>
      have h' : wpc = Polling.WriterPC.releasing := h
      subst h'
      have hw' : wh = true := hw
      subst hw'
      have hst' : store = e.newRec := hst
      subst hst'
      exact ⟨rfl, hr, Or.inl rfl, rfl, hrd⟩
  | rAcquire h hw2 hr2 =>
      have h' : rpc = Polling.ReaderPC.acquiring := h
      subst h'
      have hw' : wh = false := hw2
      subst hw'
      have hr' : rh = false := hr2
      subst hr'
      exact ⟨hw, rfl, Or.inl hw.symm, hst, hrd⟩
  | rReadRun h =>
      have h' : rpc = Polling.ReaderPC.readRun := h
      subst h'
      have hr' : rh = true := hr
      subst hr'
      have hww : Polling.wHoldsShape wpc = false := by
        rcases hmx with hx | hx
        · exact hx
        · simp [Polling.rHoldsShape] at hx
      exact ⟨hw, rfl, Or.inl hww, hst, rfl, hrd.2⟩
  | rReadCheck h =>
      have h' : rpc = Polling.ReaderPC.readCheck := h
      subst h'
      have hr' : rh = true := hr
      subst hr'
      have hww : Polling.wHoldsShape wpc = false := by
        rcases hmx with hx | hx
        · exact hx
        · simp [Polling.rHoldsShape] at hx
      exact ⟨hw, rfl, Or.inl hww, hst, hrd.1, rfl⟩
  | rRelease h =>
      have h' : rpc = Polling.ReaderPC.releasing := h
      subst h'
      have hr' : rh = true := hr
      subst hr'
      have hww : Polling.wHoldsShape wpc = false := by
        rcases hmx with hx | hx
        · exact hx
        · simp [Polling.rHoldsShape] at hx
      refine ⟨hw, rfl, Or.inl hww, hst, ?_⟩
      cases wpc with
      | probing =>
          have hs : store = e.old := hst
          subst hs
          exact Or.inl ⟨hrd.1, hrd.2⟩
      | acquiring =>
          have hs : store = e.old := hst
          subst hs
          exact Or.inl ⟨hrd.1, hrd.2⟩
      | setRun => simp [Polling.wHoldsShape] at hww
      | setCheck => simp [Polling.wHoldsShape] at hww
      | releasing => simp [Polling.wHoldsShape] at hww
      | done =>
          have hs : store = e.newRec := hst
          subst hs
          exact Or.inr ⟨hrd.1, hrd.2⟩

theorem sync_inv_reachable (e : Polling.SyncEnv) (s : Polling.SyncState)
    (h : Polling.SyncReachable e s) : Polling.SyncInv e s := by
  induction h with
  | init => exact sync_inv_init e
  | step s t hs st ih => exact sync_inv_step e s t ih st

/-- C1: in every reachable interleaving of the background writer cycle
with a concurrent /health reader of the Status Store, a reader that has
finished observed either the prior record or the newly written record as
a consistent (is_running, last_check) pair, never a mixture of the two
writes; moreover the exclusion primitive is never held at the probe
instruction, and whenever the writer holds it the writer is inside the
two field assignments (or the closing release) only. -/
theorem c1_status_store_consistent_reads (e : Polling.SyncEnv)
    (s : Polling.SyncState) (h : Polling.SyncReachable e s) :
    (s.rpc = Polling.ReaderPC.done →
      (s.rRun = some e.old.is_running ∧ s.rCheck = some e.old.last_check) ∨
      (s.rRun = some e.newRun ∧ s.rCheck = some (some e.newTime))) ∧
    (s.wpc = Polling.WriterPC.probing → s.wHolds = false) ∧
    (s.wHolds = true →
      s.wpc = Polling.WriterPC.setRun ∨ s.wpc = Polling.WriterPC.setCheck ∨
      s.wpc = Polling.WriterPC.releasing) := by
  obtain ⟨hw, hr, hmx, hst, hrd⟩ := sync_inv_reachable e s h
  refine ⟨?_, ?_, ?_⟩
  · intro hdone
    unfold Polling.readerShape at hrd
    rw [hdone] at hrd
    exact hrd
  · intro hp
    rw [hw, hp]
    rfl
  · intro htrue
    rw [hw] at htrue
    cases hc : s.wpc with
    | probing => rw [hc] at htrue; simp [Polling.wHoldsShape] at htrue
    | acquiring => rw [hc] at htrue; simp [Polling.wHoldsShape] at htrue
    | setRun => exact Or.inl rfl
    | setCheck => exact Or.inr (Or.inl rfl)
    | releasing => exact Or.inr (Or.inr rfl)
    | done => rw [hc] at htrue; simp [Polling.wHoldsShape] at htrue

theorem c1final_reachable : Polling.SyncReachable c1env c1final := by
  have h0 : Polling.SyncReachable c1env (Polling.SyncState.init c1env) :=
    Polling.SyncReachable.init
  have h1 := Polling.SyncReachable.step _ _ h0 (Polling.SyncStep.probe _ rfl)
  have h2 := Polling.SyncReachable.step _ _ h1 (Polling.SyncStep.wAcquire _ rfl rfl rfl)
  have h3 := Polling.SyncReachable.step _ _ h2 (Polling.SyncStep.wSetRun _ rfl)
  have h4 := Polling.SyncReachable.step _ _ h3 (Polling.SyncStep.wSetCheck _ rfl)
  have h5 := Polling.SyncReachable.step _ _ h4 (Polling.SyncStep.wRelease _ rfl)
  have h6 := Polling.SyncReachable.step _ _ h5 (Polling.SyncStep.rAcquire _ rfl rfl rfl)
  have h7 := Polling.SyncReachable.step _ _ h6 (Polling.SyncStep.rReadRun _ rfl)
  have h8 := Polling.SyncReachable.step _ _ h7 (Polling.SyncStep.rReadCheck _ rfl)
  have h9 := Polling.SyncReachable.step _ _ h8 (Polling.SyncStep.rRelease _ rfl)
  exact h9

/-- Witness for c1_status_store_consistent_reads: after a concrete full
writer cycle followed by a full reader pass, the reader observed exactly
the newly written pair. -/
theorem c1_status_store_consistent_reads_witness :
    (c1final.rRun = some c1env.old.is_running ∧
     c1final.rCheck = some c1env.old.last_check) ∨
    (c1final.rRun = some c1env.newRun ∧
     c1final.rCheck = some (some c1env.newTime)) :=
  (c1_status_store_consistent_reads c1env c1final c1final_reachable).1 rfl

/-- C2: every GET /health request is answered, in each of the three
variants, with 200 and the running payload when the liveness
determination is up and with 503 and the not-running payload when it is
down; these are the only two statuses /health can produce, and the
cached-poll variant additionally carries a last_check field in its
response dict. -/
theorem c2_health_responses :
    (∀ (probeOf : String → SubprocOutcome) (name : String),
      Proc.do_GET probeOf name healthPath =
        .ok (if Proc.is_running_val (probeOf name) then
              { status := 200, contentType := some appJson,
                body := Body.bytes healthOkBody }
             else
              { status := 503, contentType := some appJson,
                body := Body.bytes healthErrBody })) ∧
    (∀ (env : Docker.DockerEnv) (cname : String),
      Docker.do_GET env cname healthPath =
        .ok (if Docker.is_running_val env.healthPs then
              { status := 200, contentType := some appJson,
                body := Body.bytes healthOkBody }
             else
              { status := 503, contentType := some appJson,
                body := Body.bytes healthErrBody })) ∧
    (∀ st : StatusRecord,
      Polling.do_GET st healthPath =
        (if st.is_running then
          { status := 200, contentType := some appJson,
            body := Body.bytes (pyStrDict (Polling.health_response st)) }
         else
          { status := 503, contentType := some appJson,
            body := Body.bytes (pyStrDict (Polling.health_response st)) })) ∧
    (∀ st : StatusRecord,
      lookupVal (Polling.health_response st) ("last_check") =
        some (match st.last_check with
              | Option.none => PyVal.none
              | some t => PyVal.time t)) := by
  refine ⟨?_, ?_, ?_, ?_⟩
  · intro probeOf name
    have hrun := proc_run_ok (probeOf name)
    cases hb : Proc.is_running_val (probeOf name) <;>
      simp only [Proc.do_GET, hrun, hb] <;> rfl
  · intro env cname
    have hrun := docker_run_ok env.healthPs
    cases hb : Docker.is_running_val env.healthPs <;>
      simp only [Docker.do_GET, hrun, hb] <;> rfl
  · intro st
    obtain ⟨b, lc⟩ := st
    cases b <;> rfl
  · intro st
    obtain ⟨b, lc⟩ := st
    cases b <;> cases lc <;> rfl

/-- C3: for every probe invocation, is_up is true exactly when the
mechanism reports the target as running — for the two process variants
when pgrep exits 0, for the container variant when the filtered docker ps
status string begins with Up (and the call exits 0) — and every other
outcome yields is_up = false. -/
theorem c3_probe_derivation :
    (∀ o : SubprocOutcome,
      (Proc.is_minecraft_running o = .ok true ↔
        ∃ out err, o = SubprocOutcome.completed 0 out err) ∧
      (Proc.is_minecraft_running o = .ok false ↔
        ¬ ∃ out err, o = SubprocOutcome.completed 0 out err)) ∧
    (∀ o : SubprocOutcome,
      (Polling.check_minecraft_process o = .ok true ↔
        ∃ out err, o = SubprocOutcome.completed 0 out err) ∧
      (Polling.check_minecraft_process o = .ok false ↔
        ¬ ∃ out err, o = SubprocOutcome.completed 0 out err)) ∧
    (∀ o : SubprocOutcome,
      (Docker.is_minecraft_running o = .ok true ↔
        ∃ out err, o = SubprocOutcome.completed 0 out err ∧
          (out.trim).startsWith upMarker = true) ∧
      (Docker.is_minecraft_running o = .ok false ↔
        ¬ ∃ out err, o = SubprocOutcome.completed 0 out err ∧
          (out.trim).startsWith upMarker = true)) := by
  refine ⟨?_, ?_, ?_⟩
  · intro o
    cases o <;> simp [Proc.is_minecraft_running, subprocessRun]
  · intro o
    cases o <;> simp [Polling.check_minecraft_process, subprocessRun]
  · intro o
    cases o with
    | completed rc out err =>
        by_cases hrc : rc = 0
        · subst hrc
          cases hs : (out.trim).startsWith upMarker <;>
            simp [Docker.is_minecraft_running, subprocessRun, hs]
        · simp [Docker.is_minecraft_running, subprocessRun, hrc]
    | timedOut m => simp [Docker.is_minecraft_running, subprocessRun]
    | fileNotFound m => simp [Docker.is_minecraft_running, subprocessRun]
    | raised m => simp [Docker.is_minecraft_running, subprocessRun]

theorem background_cycle_ok (o : SubprocOutcome) (t : Nat) :
    Polling.background_cycle o t =
      .ok { is_running := Polling.check_val o, last_check := some t } := by
  simp only [Polling.background_cycle, polling_check_ok o]
  rfl

theorem run_cycles_ok (l : List (SubprocOutcome × Nat)) :
    ∀ st, ∃ st', Polling.run_cycles l st = .ok st' := by
  induction l with
  | nil => intro st; exact ⟨st, rfl⟩
  | cons p rest ih =>
      obtain ⟨o, t⟩ := p
      intro st
      obtain ⟨st', h⟩ := ih { is_running := Polling.check_val o, last_check := some t }
      refine ⟨st', ?_⟩
      simp only [Polling.run_cycles, background_cycle_ok o t]
      exact h

theorem run_cycles_last (l : List (SubprocOutcome × Nat)) :
    ∀ st u, st.last_check = some u →
      ∃ st' t', Polling.run_cycles l st = .ok st' ∧ st'.last_check = some t' := by
  induction l with
  | nil => intro st u hu; exact ⟨st, u, rfl, hu⟩
  | cons p rest ih =>
      obtain ⟨o, t⟩ := p
      intro st u hu
      obtain ⟨st', t', h1, h2⟩ :=
        ih { is_running := Polling.check_val o, last_check := some t } t rfl
      refine ⟨st', t', ?_, h2⟩
      simp only [Polling.run_cycles, background_cycle_ok o t]
      exact h1

/-- C4: every runtime probe failure (check tool missing, probe timeout,
unexpected error) makes the prober return a normal result with is_up =
false instead of propagating the exception to its caller — in the
cached-poll prober and in the direct-check prober — and consequently
every finite prefix of the background scheduler loop completes all of
its cycles without an exception escaping. -/
theorem c4_failures_absorbed :
    (∀ m, Polling.check_minecraft_process (SubprocOutcome.timedOut m) = .ok false ∧
          Polling.check_minecraft_process (SubprocOutcome.fileNotFound m) = .ok false ∧
          Polling.check_minecraft_process (SubprocOutcome.raised m) = .ok false) ∧
    (∀ o, Polling.check_minecraft_process o = .ok (Polling.check_val o)) ∧
    (∀ m, Proc.is_minecraft_running (SubprocOutcome.timedOut m) = .ok false ∧
          Proc.is_minecraft_running (SubprocOutcome.fileNotFound m) = .ok false ∧
          Proc.is_minecraft_running (SubprocOutcome.raised m) = .ok false) ∧
    (∀ (l : List (SubprocOutcome × Nat)) (st : StatusRecord),
       ∃ st', Polling.run_cycles l st = .ok st') := by
  refine ⟨?_, polling_check_ok, ?_, ?_⟩
  · intro m; exact ⟨rfl, rfl, rfl⟩
  · intro m; exact ⟨rfl, rfl, rfl⟩
  · intro l st; exact run_cycles_ok l st

/-- C5: before the first scheduler write, the cached-poll /health
reflects the unchecked sentinel exactly like a not-running target: 503
with the not-running payload (last_check None). -/
theorem c5_unchecked_sentinel :
    Polling.do_GET Polling.minecraft_status_init healthPath =
      { status := 503, contentType := some appJson,
        body := Body.bytes (pyStrDict
          [("status", PyVal.str ("error")),
           ("minecraft", PyVal.str ("not_running")),
           ("last_check", PyVal.none)]) } := by
  rfl

/-- C6 counterexample: with the probe tool unavailable and the port bind
succeeding, the two pgrep-based variants start the HTTP listener instead
of exiting — no startup verification of the probe tool happens there,
contrary to the claim that every variant verifies it and exits. -/
theorem c6_counterexample :
    Proc.main false BindOutcome.ok = StartOutcome.listenerStarted ∧
    Polling.main false BindOutcome.ok = StartOutcome.listenerStarted ∧
    StartOutcome.listenerStarted ≠ StartOutcome.exited 1 := by
  exact ⟨rfl, rfl, by decide⟩

/-- C6 amended: only the container variant verifies its probe tool at
startup — a missing docker binary exits with status 1 before the
listener starts (a docker version call that completes merely proceeds,
logging at worst) — while the process-pattern and cached-poll variants
never consult tool availability and start the listener whenever the port
binds; bind failures exit with status 1 in all variants. -/
theorem c6_amended_startup :
    (∀ m bind, Docker.main (SubprocOutcome.fileNotFound m) bind =
       StartOutcome.exited 1) ∧
    (∀ rc out err bind, Docker.main (SubprocOutcome.completed rc out err) bind =
       (match bind with
        | BindOutcome.ok => StartOutcome.listenerStarted
        | BindOutcome.permissionDenied => StartOutcome.exited 1
        | BindOutcome.osError _ => StartOutcome.exited 1)) ∧
    (∀ a bind, Proc.main a bind =
       (match bind with
        | BindOutcome.ok => StartOutcome.listenerStarted
        | BindOutcome.permissionDenied => StartOutcome.exited 1
        | BindOutcome.osError _ => StartOutcome.exited 1)) ∧
    (∀ a bind, Polling.main a bind =
       (match bind with
        | BindOutcome.ok => StartOutcome.listenerStarted
        | BindOutcome.permissionDenied => StartOutcome.exited 1
        | BindOutcome.osError _ => StartOutcome.exited 1)) := by
  refine ⟨?_, ?_, ?_, ?_⟩
  · intro m bind; rfl
  · intro rc out err bind; cases bind <;> rfl
  · intro a bind; cases bind <;> rfl
  · intro a bind; cases bind <;> rfl

theorem proc_debug_doc (probeOf : String → SubprocOutcome) (name : String) :
    Proc.get_debug_info probeOf name =
      .ok (Json.obj
        [("process_name", Json.str name),
         ("is_running", Json.bool (Proc.is_running_val (probeOf name))),
         ("search_results", Json.obj (Proc.search_results probeOf))]) := by
  simp only [Proc.get_debug_info, proc_run_ok (probeOf name)]
  rfl

theorem docker_debug_doc (env : Docker.DockerEnv) (cname : String) :
    Docker.get_debug_info env cname =
      .ok (Json.obj
        [("container_name", Json.str cname),
         ("is_running", Json.bool (Docker.is_running_val env.healthPs)),
         ("docker_info", Json.obj (Docker.psAllSection env.psAll ++
            Docker.inspectSection env.inspect))]) := by
  simp only [Docker.get_debug_info, docker_run_ok env.healthPs]
  rfl

/-- C7 counterexample: the cached-poll variant has no /debug route; a
GET /debug there is answered 404, not 200, contrary to the claim that
every variant answers /debug with 200. -/
theorem c7_counterexample :
    (Polling.do_GET Polling.minecraft_status_init debugPath).status = 404 ∧
    (Polling.do_GET Polling.minecraft_status_init debugPath).status ≠ 200 := by
  exact ⟨rfl, by decide⟩

/-- C7 amended: in the process-pattern and container variants every GET
/debug is answered 200 with the structured debug document, and a failing
sub-probe is recorded inside its own sub-section — a raised pattern
search as an error field, a failing container enumeration as an error
field (stderr on non-zero exit, str(e) on a raised call), a raised
container inspection as a target_container_error field — while the
cached-poll variant has no /debug route and answers 404. -/
theorem c7_amended_debug :
    (∀ (probeOf : String → SubprocOutcome) (name : String),
      Proc.do_GET probeOf name debugPath =
        .ok { status := 200, contentType := some appJson,
              body := Body.jsonDump (Json.obj
                [("process_name", Json.str name),
                 ("is_running", Json.bool (Proc.is_running_val (probeOf name))),
                 ("search_results", Json.obj (Proc.search_results probeOf))]) }) ∧
    (∀ m, Proc.patternResult (SubprocOutcome.timedOut m) =
            Json.obj [("error", Json.str m)] ∧
          Proc.patternResult (SubprocOutcome.fileNotFound m) =
            Json.obj [("error", Json.str m)] ∧
          Proc.patternResult (SubprocOutcome.raised m) =
            Json.obj [("error", Json.str m)]) ∧
    (∀ (env : Docker.DockerEnv) (cname : String),
      Docker.do_GET env cname debugPath =
        .ok { status := 200, contentType := some appJson,
              body := Body.jsonDump (Json.obj
                [("container_name", Json.str cname),
                 ("is_running", Json.bool (Docker.is_running_val env.healthPs)),
                 ("docker_info", Json.obj (Docker.psAllSection env.psAll ++
                    Docker.inspectSection env.inspect))]) }) ∧
    (∀ m, Docker.psAllSection (SubprocOutcome.timedOut m) =
            [("error", Json.str m)] ∧
          Docker.psAllSection (SubprocOutcome.fileNotFound m) =
            [("error", Json.str m)] ∧
          Docker.psAllSection (SubprocOutcome.raised m) =
            [("error", Json.str m)]) ∧
    (∀ rc out err, Docker.psAllSection (SubprocOutcome.completed rc out err) =
       (if rc == 0 then
          [("all_containers",
            Json.arr (((out.trim).splitOn ("\n")).filterMap Docker.parseContainerLine))]
        else [("error", Json.str err)])) ∧
    (∀ m, Docker.inspectSection (SubprocOutcome.timedOut m) =
            [("target_container_error", Json.str m)] ∧
          Docker.inspectSection (SubprocOutcome.fileNotFound m) =
            [("target_container_error", Json.str m)] ∧
          Docker.inspectSection (SubprocOutcome.raised m) =
            [("target_container_error", Json.str m)]) ∧
    (∀ st : StatusRecord, Polling.do_GET st debugPath =
       { status := 404, contentType := Option.none, body := Body.empty }) := by
  refine ⟨?_, ?_, ?_, ?_, ?_, ?_, ?_⟩
  · intro probeOf name
    simp only [Proc.do_GET]
    rw [proc_debug_doc]
    rfl
  · intro m; exact ⟨rfl, rfl, rfl⟩
  · intro env cname
    simp only [Docker.do_GET]
    rw [docker_debug_doc]
    rfl
  · intro m; exact ⟨rfl, rfl, rfl⟩
  · intro rc out err; rfl
  · intro m; exact ⟨rfl, rfl, rfl⟩
  · intro st; rfl

/-- C8: the cached-poll /health body is produced by Python str() of the
response dict rather than a JSON encoder, and for the reachable initial
status record the resulting body fails to parse as JSON. -/
theorem c8_body_not_json :
    (∀ st : StatusRecord, (Polling.do_GET st healthPath).body =
       Body.bytes (pyStrDict (Polling.health_response st))) ∧
    parseJson (pyStrDict (Polling.health_response Polling.minecraft_status_init)) =
      Option.none := by
  constructor
  · intro st
    obtain ⟨b, lc⟩ := st
    cases b <;> rfl
  · rfl

/-- C9: the process-pattern debug enumeration searches the fixed literal
pattern list, independent of the configured process name: the
search_results section has exactly these four keys for every
configuration, and the configured name only reaches the top-level
process_name and is_running fields of the document. -/
theorem c9_fixed_patterns :
    (∀ (probeOf : String → SubprocOutcome) (name : String),
      Proc.get_debug_info probeOf name =
        .ok (Json.obj
          [("process_name", Json.str name),
           ("is_running", Json.bool (Proc.is_running_val (probeOf name))),
           ("search_results", Json.obj (Proc.search_results probeOf))])) ∧
    (∀ probeOf, (Proc.search_results probeOf).map Prod.fst =
       [("bedrock_server"), ("bedrock"), ("minecraft"), ("LD_LIBRARY_PATH")]) ∧
    Proc.patterns =
      [("bedrock_server"), ("bedrock"), ("minecraft"), ("LD_LIBRARY_PATH")] := by
  refine ⟨proc_debug_doc, ?_, rfl⟩
  intro probeOf
  rfl

/-- C10: every cached-poll /health response dict carries a last_check
field mirroring the store — the None sentinel while the store is still
initial, and after any first background cycle the store always holds a
numeric timestamp. -/
theorem c10_last_check :
    (∀ st : StatusRecord,
      lookupVal (Polling.health_response st) ("last_check") =
        some (match st.last_check with
              | Option.none => PyVal.none
              | some t => PyVal.time t)) ∧
    Polling.minecraft_status_init.last_check = Option.none ∧
    (∀ (o : SubprocOutcome) (t : Nat) (rest : List (SubprocOutcome × Nat))
        (st : StatusRecord),
      ∃ st' t', Polling.run_cycles ((o, t) :: rest) st = .ok st' ∧
        st'.last_check = some t') := by
  refine ⟨?_, rfl, ?_⟩
  · intro st
    obtain ⟨b, lc⟩ := st
    cases b <;> cases lc <;> rfl
  · intro o t rest st
    obtain ⟨st', t', h1, h2⟩ :=
      run_cycles_last rest { is_running := Polling.check_val o, last_check := some t } t rfl
    refine ⟨st', t', ?_, h2⟩
    simp only [Polling.run_cycles, background_cycle_ok o t]
    exact h1

end MinecraftSite
